import Mathlib

/-!
Verification of the online inference pipeline of the customer-churn
prediction service (`src/api/main.py`): request validation
(the `CustomerData` pydantic model), feature canonicalization
(`input_df[model._Booster.feature_names]`), response shaping
(confidence / recommendation thresholds in `predict_churn`),
batch prediction (`predict_batch`), audit logging (`log_prediction`)
and startup model loading (`load_model_at_startup`).

Numeric request values are embedded as rationals (`ℚ`); a request body
is an association list from field name to value; the model artifact is
opaque, represented by its feature-name list and two scoring functions
that may fail (a Python exception is an `Except.error` carrying the
message used in `str(e)`).
-/

namespace ChurnApi

/-- Scalar values appearing in audit-log rows: numbers, strings, or the
Python `Ellipsis` object (written `...` in the source at the
`log_prediction` call site of `predict_churn`). -/
inductive Value where
  | num (q : ℚ)
  | str (s : String)
  | ellipsis
  deriving DecidableEq, Repr

/-- A JSON-style record: association list from field name to numeric value. -/
abbrev Record := List (String × ℚ)

/-- An audit-log row: association list from column name to cell value. -/
abbrev Row := List (String × Value)

/-- Dictionary lookup by key (first matching entry), as Python dict /
pandas column access behaves on well-formed (duplicate-free) records. -/
def lookupField (r : Record) (n : String) : Option ℚ :=
  (r.find? (fun p => p.1 == n)).map (fun p => p.2)

/-- Lookup in an audit row by column name. -/
def lookupV (r : Row) (n : String) : Option Value :=
  (r.find? (fun p => p.1 == n)).map (fun p => p.2)

/-- One field of the `CustomerData` pydantic model: its name, whether it is
required (declared with `Field(...)`) or optional with default `0`
(declared with `Field(0, ...)`), and its `ge`/`le` bounds. -/
structure FieldSpec where
  name : String
  required : Bool
  lo : Option ℚ
  hi : Option ℚ
  deriving DecidableEq, Repr

/-- The `CustomerData` fields in declaration order
(`src/api/main.py`, lines 78-111). -/
def customerFields : List FieldSpec :=
  [ ⟨"tenure", true, some 0, some 100⟩
  , ⟨"MonthlyCharges", true, some 0, some 200⟩
  , ⟨"TotalCharges", true, some 0, none⟩
  , ⟨"SeniorCitizen", true, some 0, some 1⟩
  , ⟨"Partner", true, some 0, some 1⟩
  , ⟨"Dependents", true, some 0, some 1⟩
  , ⟨"PhoneService", true, some 0, some 1⟩
  , ⟨"PaperlessBilling", true, some 0, some 1⟩
  , ⟨"gender_Male", false, some 0, some 1⟩
  , ⟨"MultipleLines_No_phone_service", false, some 0, some 1⟩
  , ⟨"MultipleLines_Yes", false, some 0, some 1⟩
  , ⟨"InternetService_Fiber_optic", false, some 0, some 1⟩
  , ⟨"InternetService_No", false, some 0, some 1⟩
  , ⟨"OnlineSecurity_No_internet_service", false, some 0, some 1⟩
  , ⟨"OnlineSecurity_Yes", false, some 0, some 1⟩
  , ⟨"OnlineBackup_No_internet_service", false, some 0, some 1⟩
  , ⟨"OnlineBackup_Yes", false, some 0, some 1⟩
  , ⟨"DeviceProtection_No_internet_service", false, some 0, some 1⟩
  , ⟨"DeviceProtection_Yes", false, some 0, some 1⟩
  , ⟨"TechSupport_No_internet_service", false, some 0, some 1⟩
  , ⟨"TechSupport_Yes", false, some 0, some 1⟩
  , ⟨"StreamingTV_No_internet_service", false, some 0, some 1⟩
  , ⟨"StreamingTV_Yes", false, some 0, some 1⟩
  , ⟨"StreamingMovies_No_internet_service", false, some 0, some 1⟩
  , ⟨"StreamingMovies_Yes", false, some 0, some 1⟩
  , ⟨"Contract_One_year", false, some 0, some 1⟩
  , ⟨"Contract_Two_year", false, some 0, some 1⟩
  , ⟨"PaymentMethod_Credit_card_automatic", false, some 0, some 1⟩
  , ⟨"PaymentMethod_Electronic_check", false, some 0, some 1⟩
  , ⟨"PaymentMethod_Mailed_check", false, some 0, some 1⟩ ]

/-- The `ge`/`le` range check pydantic performs on a present value. -/
def inRange (f : FieldSpec) (v : ℚ) : Bool :=
  (match f.lo with | none => true | some a => decide (a ≤ v)) &&
  (match f.hi with | none => true | some b => decide (v ≤ b))

/-- Validation of one field: a missing required field or an out-of-range
value is rejected with the offending field's name; a missing optional
field takes its default `0`. -/
def validateField (req : Record) (f : FieldSpec) : Except String ℚ :=
  match lookupField req f.name with
  | none => if f.required then Except.error f.name else Except.ok 0
  | some v => if inRange f v then Except.ok v else Except.error f.name

/-- Validation of a whole request against a field list, producing the
validated record in field-declaration order (pydantic's
`customer.dict()`): required fields present and in range, optional
fields defaulted, unknown request fields dropped. -/
def parseFields (req : Record) : List FieldSpec → Except String Record
  | [] => Except.ok []
  | f :: fs =>
      match validateField req f with
      | Except.error e => Except.error e
      | Except.ok v => (parseFields req fs).map (fun d => (f.name, v) :: d)

/-- FastAPI/pydantic validation of a `/predict` request body into a
`CustomerData` dict. -/
def parseCustomer (req : Record) : Except String Record :=
  parseFields req customerFields

/-- The canonicalization step `input_df[model._Booster.feature_names]`:
select the named columns in the model's order; a name with no matching
column is a `KeyError`. -/
def selectCols (d : Record) : List String → Except String (List ℚ)
  | [] => Except.ok []
  | n :: ns =>
      match lookupField d n with
      | none => Except.error n
      | some v => (selectCols d ns).map (fun vs => v :: vs)

/-- The loaded model artifact: its booster's feature-name list plus the
`predict` / `predict_proba` scoring functions (first row of the result;
`predict_proba`'s second column). Either call may raise. -/
structure Model where
  feature_names : List String
  predictRaw : List ℚ → Except String ℤ
  predictProba : List ℚ → Except String ℚ

/-- Confidence tiers of `predict_churn` (lines 188-193), with the `High`
branch checked first, exactly as the source's `if`/`elif`/`else`. -/
def confidence (p : ℚ) : String :=
  if p > 7/10 ∨ p < 3/10 then "High"
  else if p > 6/10 ∨ p < 4/10 then "Medium"
  else "Low"

def urgentMsg : String :=
  "High churn risk! Contact customer immediately with retention offer."

def monitorMsg : String :=
  "Moderate risk. Monitor customer satisfaction and engagement."

def upsellMsg : String :=
  "Low risk. Customer likely to stay. Focus on upselling opportunities."

/-- Recommendation tiers of `predict_churn` (lines 196-201). -/
def recommendation (p : ℚ) : String :=
  if p > 7/10 then urgentMsg
  else if p > 1/2 then monitorMsg
  else upsellMsg

/-- Python's `round(float(probability), 4)`, embedded over `ℚ` (half-way
cases round via `round`; they are irrelevant to the claims). -/
def round4 (q : ℚ) : ℚ := (round (q * 10000) : ℤ) / 10000

/-- The `PredictionResponse` body of a successful `/predict` call. -/
structure PredictionResponse where
  churn_prediction : String
  churn_probability : ℚ
  confidence : String
  recommendation : String
  timestamp : String
  deriving DecidableEq, Repr

/-- Construction of the `PredictionResponse` (lines 206-212). -/
def makeResponse (r : ℤ) (p : ℚ) (ts : String) : PredictionResponse :=
  { churn_prediction := if r = 1 then "Will Churn" else "Will Not Churn"
  , churn_probability := round4 p
  , confidence := confidence p
  , recommendation := recommendation p
  , timestamp := ts }

/-- The dict literal `{"churn_prediction":..., "churn_probability":...}`
passed to `log_prediction` on the success path (line 203): both values
are the Python `Ellipsis` placeholder, not the computed prediction. -/
def ellipsisResponse : Row :=
  [("churn_prediction", Value.ellipsis), ("churn_probability", Value.ellipsis)]

/-- The row built by `log_prediction` (lines 29-33): the request's fields
followed by `prediction` and `probability` taken from the given response
dict, the status flag, execution time and timestamp. A missing response
key is a `KeyError` (`none`). -/
def logRow (data : Record) (response : Row) (status : String)
    (exec_time : ℚ) (ts : String) : Option Row :=
  match lookupV response "churn_prediction", lookupV response "churn_probability" with
  | some pred, some prob =>
      some (data.map (fun p => (p.1, Value.num p.2)) ++
        [ ("prediction", pred), ("probability", prob)
        , ("status", Value.str status), ("exec_time", Value.num exec_time)
        , ("timestamp", Value.str ts) ])
  | _, _ => none

/-- Result of an HTTP call: a 2xx body, a 422 validation rejection
(naming the offending field), or an `HTTPException(500, detail)`. -/
inductive ApiResult (α : Type) where
  | ok (a : α)
  | clientError (detail : String)
  | serverError (detail : String)
  deriving Repr

/-- The `/predict` handler `predict_churn` (lines 158-217), from pydantic
validation through response construction. `logResult` is the outcome of
the audit-log file append attempted by `log_prediction` (an
`Except.error` is an I/O exception, caught by the handler's `except`
clause). The second component collects the audit rows actually appended
during the call; the `log_prediction` call in the source's `except`
clause stands after `raise HTTPException` (lines 215-217), so the error
path appends nothing. -/
def handlePredict (model? : Option Model) (logResult : Except String Unit)
    (exec_time : ℚ) (ts : String) (req : Record) :
    ApiResult PredictionResponse × List Row :=
  match parseCustomer req with
  | Except.error f => (ApiResult.clientError f, [])
  | Except.ok input_dict =>
      match model? with
      | none => (ApiResult.serverError "Model not loaded", [])
      | some model =>
          match selectCols input_dict model.feature_names with
          | Except.error e => (ApiResult.serverError ("Prediction error: " ++ e), [])
          | Except.ok canon =>
              match model.predictRaw canon with
              | Except.error e => (ApiResult.serverError ("Prediction error: " ++ e), [])
              | Except.ok r =>
                  match model.predictProba canon with
                  | Except.error e => (ApiResult.serverError ("Prediction error: " ++ e), [])
                  | Except.ok p =>
                      match logRow input_dict ellipsisResponse "success" exec_time ts with
                      | none => (ApiResult.serverError "Prediction error: KeyError", [])
                      | some row =>
                          match logResult with
                          | Except.error e =>
                              (ApiResult.serverError ("Prediction error: " ++ e), [])
                          | Except.ok _ => (ApiResult.ok (makeResponse r p ts), [row])

/-- One slot of a `/predict/batch` response: a success dict or an inline
error dict. -/
inductive BatchItem where
  | ok (churn_prediction : String) (churn_probability : ℚ)
  | error (msg : String)
  deriving Repr

/-- The body of `predict_batch`'s per-customer `try` block
(lines 231-246): canonicalize, score, shape; any exception becomes an
inline error entry. -/
def processOne (model : Model) (input_dict : Record) : BatchItem :=
  match selectCols input_dict model.feature_names with
  | Except.error e => BatchItem.error e
  | Except.ok canon =>
      match model.predictRaw canon with
      | Except.error e => BatchItem.error e
      | Except.ok r =>
          match model.predictProba canon with
          | Except.error e => BatchItem.error e
          | Except.ok p =>
              BatchItem.ok (if r = 1 then "Will Churn" else "Will Not Churn")
                (round4 p)

/-- The accumulation loop of `predict_batch` (lines 228-246):
`results = []` then append one item per customer. -/
def predict_batch (model : Model) (customers : List Record) : List BatchItem :=
  customers.foldl (fun results c => results ++ [processOne model c]) []

/-- The hardcoded candidate paths of `load_model_at_startup`
(lines 45-49). -/
def model_paths : List String :=
  [ "../models/churn_model_fixed.joblib"
  , "../models/sagemaker_production/model.joblib"
  , "/Users/apple/Documents/Practice ML/customer-churn-mlops/models/sagemaker_production/model.joblib" ]

/-- Suffix test on strings (Python's `str.endswith`), via character
lists. -/
def strEndsWith (s suffix : String) : Bool :=
  suffix.data.isSuffixOf s.data

/-- The filesystem and deserializer environment `load_model_at_startup`
runs against: which paths exist, and what loading each path yields
(`Except.error` is a raised exception, caught and skipped by the
source's `try`/`except`). The same loader models both the `joblib.load`
and `pickle.load` branches. -/
structure FileSystem where
  pathExists : String → Bool
  load : String → Except String Model

/-- The candidate loop of `load_model_at_startup` (lines 51-70): skip
non-existing paths; for an existing path with a recognized extension try
to load, returning on success and continuing on a raised exception;
paths with an unrecognized extension are skipped (`continue`); if the
loop finishes, raise `Model not found!`. Returns the loaded model with
the path it came from. -/
def tryPaths (fs : FileSystem) : List String → Except String (Model × String)
  | [] => Except.error "Model not found!"
  | p :: ps =>
      if fs.pathExists p then
        if strEndsWith p ".joblib" ∨ strEndsWith p ".pkl" then
          match fs.load p with
          | Except.ok m => Except.ok (m, p)
          | Except.error _ => tryPaths fs ps
        else tryPaths fs ps
      else tryPaths fs ps

/-- `load_model_at_startup` (lines 41-70) over the hardcoded path
list. -/
def load_model_at_startup (fs : FileSystem) : Except String (Model × String) :=
  tryPaths fs model_paths

/-- The first existing path in the candidate list (regardless of whether
it loads), the reading C8 gives of the spec's phrase. -/
def firstExistingPath (fs : FileSystem) : Option String :=
  model_paths.find? fs.pathExists

/-- Whether a candidate path would be accepted by the loop: it exists,
has a recognized extension, and its load succeeds. -/
def loadsOk (fs : FileSystem) (p : String) : Bool :=
  fs.pathExists p &&
    (strEndsWith p ".joblib" || strEndsWith p ".pkl") &&
    (match fs.load p with | Except.ok _ => true | Except.error _ => false)

/-- The audit row `log_prediction` appends on the success path: the
validated dict's fields followed by the `Ellipsis` placeholders, the
`success` status, the execution time and the timestamp (this term is
what `logRow input_dict ellipsisResponse "success" t ts` computes to). -/
def successRow (d : Record) (t : ℚ) (ts : String) : Row :=
  d.map (fun p => (p.1, Value.num p.2)) ++
    [ ("prediction", Value.ellipsis), ("probability", Value.ellipsis)
    , ("status", Value.str "success"), ("exec_time", Value.num t)
    , ("timestamp", Value.str ts) ]

/-- The documented example request of `CustomerData.Config.schema_extra`,
written in a scrambled field order. -/
def exampleReq : Record :=
  [ ("Contract_Two_year", 1), ("tenure", 12), ("PaymentMethod_Electronic_check", 0)
  , ("MonthlyCharges", 70), ("TotalCharges", 840), ("Partner", 1)
  , ("SeniorCitizen", 0), ("PhoneService", 1), ("Dependents", 0)
  , ("gender_Male", 1), ("PaperlessBilling", 1) ]

/-- The validated `CustomerData` dict produced from `exampleReq`. -/
def exampleDict : Record :=
  [ ("tenure", 12), ("MonthlyCharges", 70), ("TotalCharges", 840)
  , ("SeniorCitizen", 0), ("Partner", 1), ("Dependents", 0)
  , ("PhoneService", 1), ("PaperlessBilling", 1), ("gender_Male", 1)
  , ("MultipleLines_No_phone_service", 0), ("MultipleLines_Yes", 0)
  , ("InternetService_Fiber_optic", 0), ("InternetService_No", 0)
  , ("OnlineSecurity_No_internet_service", 0), ("OnlineSecurity_Yes", 0)
  , ("OnlineBackup_No_internet_service", 0), ("OnlineBackup_Yes", 0)
  , ("DeviceProtection_No_internet_service", 0), ("DeviceProtection_Yes", 0)
  , ("TechSupport_No_internet_service", 0), ("TechSupport_Yes", 0)
  , ("StreamingTV_No_internet_service", 0), ("StreamingTV_Yes", 0)
  , ("StreamingMovies_No_internet_service", 0), ("StreamingMovies_Yes", 0)
  , ("Contract_One_year", 0), ("Contract_Two_year", 1)
  , ("PaymentMethod_Credit_card_automatic", 0)
  , ("PaymentMethod_Electronic_check", 0), ("PaymentMethod_Mailed_check", 0) ]

/-- The required fields of the documented example with `tenure = -1`:
out of the declared range `[0, 100]`. -/
def badTenureReq : Record :=
  [ ("tenure", -1), ("MonthlyCharges", 70), ("TotalCharges", 840)
  , ("SeniorCitizen", 0), ("Partner", 1), ("Dependents", 0)
  , ("PhoneService", 1), ("PaperlessBilling", 1) ]

/-- A loadable stub model: no feature columns, constant raw prediction 1
and constant probability 0.8. -/
def stubModel : Model :=
  { feature_names := []
  , predictRaw := fun _ => Except.ok 1
  , predictProba := fun _ => Except.ok (4/5) }

/-- A filesystem in which the first candidate path exists but its load
raises, while the second candidate exists and loads. -/
def corruptFirstFS : FileSystem :=
  { pathExists := fun p => p == "../models/churn_model_fixed.joblib" ||
      p == "../models/sagemaker_production/model.joblib"
  , load := fun p => if p == "../models/sagemaker_production/model.joblib"
      then Except.ok stubModel
      else Except.error "corrupt" }

end ChurnApi

namespace ChurnApi

/-! ### Helper lemmas on record lookup and validation -/

theorem lookupField_eq_none {r : Record} {n : String} :
    lookupField r n = none ↔ ∀ v, (n, v) ∉ r := by
  unfold lookupField
  rw [Option.map_eq_none', List.find?_eq_none]
  constructor
  · intro h v hv
    exact (h (n, v) hv) (by simp)
  · intro h x hx hbeq
    have hx1 : x.1 = n := by simpa using hbeq
    refine h x.2 ?_
    rw [← hx1]
    simpa using hx

theorem lookupField_of_mem {r : Record} {n : String} {v : ℚ}
    (hnd : (r.map Prod.fst).Nodup) (hmem : (n, v) ∈ r) :
    lookupField r n = some v := by
  induction r with
  | nil => cases hmem
  | cons a t ih =>
    rw [List.map_cons, List.nodup_cons] at hnd
    by_cases hb : ((fun p => p.1 == n) a) = true
    · have ha1 : a.1 = n := by simpa using hb
      rcases List.mem_cons.mp hmem with heq | htail
      · unfold lookupField
        rw [List.find?_cons_of_pos (p := fun q : String × ℚ => q.1 == n) _ hb]
        simp [← heq]
      · exfalso
        have h1 : n ∈ t.map Prod.fst := List.mem_map.mpr ⟨(n, v), htail, rfl⟩
        exact hnd.1 (ha1 ▸ h1)
    · have ha1 : a.1 ≠ n := by simpa using hb
      have htail : (n, v) ∈ t := by
        rcases List.mem_cons.mp hmem with heq | htail
        · exact absurd (congrArg Prod.fst heq.symm) ha1
        · exact htail
      unfold lookupField
      rw [List.find?_cons_of_neg (p := fun q : String × ℚ => q.1 == n) _ hb]
      exact ih hnd.2 htail

theorem lookupField_eq_some {r : Record} {n : String} {v : ℚ}
    (hnd : (r.map Prod.fst).Nodup) :
    lookupField r n = some v ↔ (n, v) ∈ r := by
  constructor
  · intro h
    unfold lookupField at h
    rcases Option.map_eq_some'.mp h with ⟨x, hfind, hx2⟩
    have hx1 : x.1 = n := by simpa using List.find?_some hfind
    have hmem := List.mem_of_find?_eq_some hfind
    have hx : (n, v) = x := by
      obtain ⟨x1, x2⟩ := x
      simp only at hx1 hx2
      rw [hx1, hx2]
    rw [hx]
    exact hmem
  · exact lookupField_of_mem hnd

theorem lookupField_isSome_of_mem_keys {r : Record} {n : String}
    (h : n ∈ r.map Prod.fst) : (lookupField r n).isSome := by
  rcases List.mem_map.mp h with ⟨x, hx, hx1⟩
  unfold lookupField
  rw [Option.isSome_map']
  exact List.find?_isSome.mpr ⟨x, hx, by simp [hx1]⟩

theorem lookupField_perm {r₁ r₂ : Record} (hnd : (r₁.map Prod.fst).Nodup)
    (hp : r₁.Perm r₂) (n : String) : lookupField r₁ n = lookupField r₂ n := by
  have hnd₂ : (r₂.map Prod.fst).Nodup := ((hp.map Prod.fst).nodup_iff).mp hnd
  cases h : lookupField r₁ n with
  | some v =>
    have hm : (n, v) ∈ r₁ := (lookupField_eq_some hnd).mp h
    exact ((lookupField_eq_some hnd₂).mpr (hp.mem_iff.mp hm)).symm
  | none =>
    have hm := lookupField_eq_none.mp h
    exact (lookupField_eq_none.mpr (fun v hv => hm v (hp.mem_iff.mpr hv))).symm

theorem parseFields_congr {r₁ r₂ : Record}
    (h : ∀ n, lookupField r₁ n = lookupField r₂ n) :
    ∀ fs, parseFields r₁ fs = parseFields r₂ fs := by
  intro fs
  induction fs with
  | nil => rfl
  | cons f fs ih =>
    simp only [parseFields, validateField, h f.name, ih]

theorem parseFields_keys {req : Record} :
    ∀ {fs : List FieldSpec} {d : Record}, parseFields req fs = Except.ok d →
      d.map Prod.fst = fs.map FieldSpec.name := by
  intro fs
  induction fs with
  | nil =>
    intro d h
    simp only [parseFields, Except.ok.injEq] at h
    rw [← h]
    rfl
  | cons f fs ih =>
    intro d h
    simp only [parseFields] at h
    cases hv : validateField req f with
    | error e => rw [hv] at h; cases h
    | ok v =>
      rw [hv] at h
      cases hp : parseFields req fs with
      | error e => rw [hp] at h; cases h
      | ok d' =>
        rw [hp] at h
        simp only [Except.map, Except.ok.injEq] at h
        rw [← h, List.map_cons, ih hp, List.map_cons]

theorem parseFields_mem {req : Record} :
    ∀ {fs : List FieldSpec} {d : Record}, parseFields req fs = Except.ok d →
      ∀ f ∈ fs, ∃ v, validateField req f = Except.ok v ∧ (f.name, v) ∈ d := by
  intro fs
  induction fs with
  | nil => intro d _ f hf; cases hf
  | cons g fs ih =>
    intro d h f hf
    simp only [parseFields] at h
    cases hv : validateField req g with
    | error e => rw [hv] at h; cases h
    | ok v =>
      rw [hv] at h
      cases hp : parseFields req fs with
      | error e => rw [hp] at h; cases h
      | ok d' =>
        rw [hp] at h
        simp only [Except.map, Except.ok.injEq] at h
        rcases List.mem_cons.mp hf with heq | htail
        · exact ⟨v, heq ▸ hv, by rw [← h, heq]; exact List.mem_cons_self _ _⟩
        · rcases ih hp f htail with ⟨w, hw1, hw2⟩
          exact ⟨w, hw1, by rw [← h]; exact List.mem_cons_of_mem _ hw2⟩

theorem selectCols_spec {d : Record} :
    ∀ {ns : List String}, (∀ n ∈ ns, (lookupField d n).isSome) →
      ∃ vs, selectCols d ns = Except.ok vs ∧ vs.length = ns.length ∧
        ∀ i, i < ns.length →
          ∃ n v, ns[i]? = some n ∧ vs[i]? = some v ∧ lookupField d n = some v := by
  intro ns
  induction ns with
  | nil => exact fun _ => ⟨[], rfl, rfl, fun i hi => absurd hi (by simp)⟩
  | cons n ns ih =>
    intro h
    have hn : (lookupField d n).isSome := h n (List.mem_cons_self _ _)
    rcases Option.isSome_iff_exists.mp hn with ⟨v, hv⟩
    rcases ih (fun m hm => h m (List.mem_cons_of_mem _ hm)) with ⟨vs, hsel, hlen, helem⟩
    refine ⟨v :: vs, ?_, by simp [hlen], ?_⟩
    · simp only [selectCols, hv, hsel, Except.map]
    · intro i hi
      cases i with
      | zero => exact ⟨n, v, by simp, by simp, hv⟩
      | succ j =>
        have hj : j < ns.length := by simpa using hi
        rcases helem j hj with ⟨m, w, h1, h2, h3⟩
        exact ⟨m, w, by simpa using h1, by simpa using h2, h3⟩

theorem customerFields_names_nodup : (customerFields.map FieldSpec.name).Nodup := by
  decide

end ChurnApi

namespace ChurnApi

/-! ### Claim theorems: confidence classification -/

/-- C2: the confidence classification is a deterministic, total function
of the probability (a plain function over `ℚ`, no failure, no I/O),
with the `High` branch checked first: `High` when
`p > 0.7 ∨ p < 0.3`; otherwise `Medium` when `p > 0.6 ∨ p < 0.4`;
otherwise `Low`. -/
theorem confidence_classification (p : ℚ) :
    ((p > 7/10 ∨ p < 3/10) → confidence p = "High") ∧
    (¬(p > 7/10 ∨ p < 3/10) → (p > 6/10 ∨ p < 4/10) → confidence p = "Medium") ∧
    (¬(p > 7/10 ∨ p < 3/10) → ¬(p > 6/10 ∨ p < 4/10) → confidence p = "Low") := by
  unfold confidence
  refine ⟨fun h => if_pos h, fun h1 h2 => ?_, fun h1 h2 => ?_⟩
  · rw [if_neg h1, if_pos h2]
  · rw [if_neg h1, if_neg h2]

/-- Concrete instances of `confidence_classification` at probabilities
0.8, 0.65 and 0.5. -/
theorem confidence_classification_witness :
    confidence (4/5) = "High" ∧ confidence (13/20) = "Medium" ∧
      confidence (1/2) = "Low" :=
  ⟨(confidence_classification (4/5)).1 (Or.inl (by norm_num)),
   (confidence_classification (13/20)).2.1 (by push_neg; constructor <;> norm_num)
     (Or.inl (by norm_num)),
   (confidence_classification (1/2)).2.2 (by push_neg; constructor <;> norm_num)
     (by push_neg; constructor <;> norm_num)⟩

/-- C10: as a consequence of the branch precedence the confidence tiers
partition the probability line exactly: `High` iff `p > 0.7 ∨ p < 0.3`
(so every value covered by both the nominal High and Medium conditions
resolves to `High`), `Medium` iff `p ∈ (0.6, 0.7] ∪ [0.3, 0.4)`, and
`Low` iff `p ∈ [0.4, 0.6]`. -/
theorem confidence_partition (p : ℚ) :
    (confidence p = "High" ↔ (p > 7/10 ∨ p < 3/10)) ∧
    (confidence p = "Medium" ↔ ((6/10 < p ∧ p ≤ 7/10) ∨ (3/10 ≤ p ∧ p < 4/10))) ∧
    (confidence p = "Low" ↔ (4/10 ≤ p ∧ p ≤ 6/10)) := by
  unfold confidence
  split_ifs with h1 h2
  · refine ⟨⟨fun _ => h1, fun _ => rfl⟩, ⟨fun h => absurd h (by decide), ?_⟩,
      ⟨fun h => absurd h (by decide), ?_⟩⟩
    · rintro (⟨a, b⟩ | ⟨a, b⟩) <;> rcases h1 with h | h <;> linarith
    · rintro ⟨a, b⟩
      rcases h1 with h | h <;> linarith
  · push_neg at h1
    refine ⟨⟨fun h => absurd h (by decide), ?_⟩, ⟨fun _ => ?_, fun _ => rfl⟩,
      ⟨fun h => absurd h (by decide), ?_⟩⟩
    · rintro (h | h) <;> [exact absurd h (not_lt.mpr h1.1); exact absurd h (not_lt.mpr h1.2)]
    · rcases h2 with h | h
      · exact Or.inl ⟨h, h1.1⟩
      · exact Or.inr ⟨h1.2, h⟩
    · rintro ⟨a, b⟩
      rcases h2 with h | h <;> linarith
  · push_neg at h1 h2
    refine ⟨⟨fun h => absurd h (by decide), ?_⟩, ⟨fun h => absurd h (by decide), ?_⟩,
      ⟨fun _ => ⟨h2.2, h2.1⟩, fun _ => rfl⟩⟩
    · rintro (h | h) <;> linarith [h1.1, h1.2]
    · rintro (⟨a, b⟩ | ⟨a, b⟩) <;> linarith [h2.1, h2.2]

/-! ### Claim theorems: batch prediction -/

theorem foldl_append_map {α β : Type} (f : α → β) :
    ∀ (cs : List α) (acc : List β),
      cs.foldl (fun rs c => rs ++ [f c]) acc = acc ++ cs.map f := by
  intro cs
  induction cs with
  | nil => intro acc; simp
  | cons c cs ih => intro acc; simp [ih, List.append_assoc]

/-- C3: `predict_batch` on N input records returns exactly N result
slots, in input order; slot i is the result of processing input i alone
(a success dict or an inline error dict), so one element's failure never
aborts the batch or removes a slot. -/
theorem predict_batch_spec (model : Model) (customers : List Record) :
    (predict_batch model customers).length = customers.length ∧
    ∀ i : ℕ, (predict_batch model customers)[i]? =
      customers[i]?.map (processOne model) := by
  have h : predict_batch model customers = customers.map (processOne model) := by
    unfold predict_batch
    rw [foldl_append_map]
    rfl
  rw [h]
  exact ⟨by simp, fun i => by simp⟩

end ChurnApi

namespace ChurnApi

/-! ### Claim theorems: canonicalization -/

/-- C1: for every valid request (one pydantic accepts), selecting the
model's feature-name columns from the validated dict yields exactly one
value per schema feature, element i matching feature i's name;
permuting the request's field order leaves the validated dict unchanged;
fields absent from the request but present in the schema come out as the
default 0; fields outside the schema do not survive into the dict. -/
theorem canonicalization_spec (req : Record) (fns : List String) (d : Record)
    (hkeys : (req.map Prod.fst).Nodup)
    (hparse : parseCustomer req = Except.ok d)
    (hfns : ∀ n ∈ fns, n ∈ customerFields.map FieldSpec.name) :
    (∃ vs, selectCols d fns = Except.ok vs ∧ vs.length = fns.length ∧
      ∀ i, i < fns.length →
        ∃ n v, fns[i]? = some n ∧ vs[i]? = some v ∧ lookupField d n = some v) ∧
    (∀ req' : Record, req.Perm req' → parseCustomer req' = Except.ok d) ∧
    (∀ f ∈ customerFields, f.required = false → lookupField req f.name = none →
      lookupField d f.name = some 0) ∧
    (∀ n, n ∉ customerFields.map FieldSpec.name → lookupField d n = none) := by
  have dkeys : d.map Prod.fst = customerFields.map FieldSpec.name :=
    parseFields_keys hparse
  have dnodup : (d.map Prod.fst).Nodup := by
    rw [dkeys]; exact customerFields_names_nodup
  refine ⟨?_, ?_, ?_, ?_⟩
  · exact selectCols_spec fun n hn =>
      lookupField_isSome_of_mem_keys (dkeys ▸ hfns n hn)
  · intro req' hp
    unfold parseCustomer
    rw [← parseFields_congr (lookupField_perm hkeys hp) customerFields]
    exact hparse
  · intro f hf hopt habs
    rcases parseFields_mem hparse f hf with ⟨v, hval, hmem⟩
    have hv0 : v = 0 := by
      unfold validateField at hval
      rw [habs, hopt] at hval
      simpa using hval.symm
    exact lookupField_of_mem dnodup (hv0 ▸ hmem)
  · intro n hn
    refine lookupField_eq_none.mpr fun v hv => hn ?_
    rw [← dkeys]
    exact List.mem_map.mpr ⟨(n, v), hv, rfl⟩

/-- Instance of `canonicalization_spec` on the documented example request
with the full feature-name list. -/
theorem canonicalization_spec_witness :
    ∃ vs, selectCols exampleDict (customerFields.map FieldSpec.name) = Except.ok vs ∧
      vs.length = (customerFields.map FieldSpec.name).length ∧
      ∀ i, i < (customerFields.map FieldSpec.name).length →
        ∃ n v, (customerFields.map FieldSpec.name)[i]? = some n ∧ vs[i]? = some v ∧
          lookupField exampleDict n = some v :=
  (canonicalization_spec exampleReq (customerFields.map FieldSpec.name) exampleDict
    (by decide) rfl (fun n h => h)).1

end ChurnApi

namespace ChurnApi

/-! ### Claim theorems: validation and the /predict handler -/

/-- C4: a request with a field outside its declared range is rejected
with a client error naming the offending field, and the inference engine
is never invoked: the handler's outcome is the same whatever model,
log outcome or clock is in place, and no audit row is written. -/
theorem validation_rejects_out_of_range (model? : Option Model)
    (logResult : Except String Unit) (t : ℚ) (ts : String) (req : Record)
    (f : String) (h : parseCustomer req = Except.error f) :
    handlePredict model? logResult t ts req = (ApiResult.clientError f, []) ∧
    ∀ (m' : Option Model) (l' : Except String Unit) (t' : ℚ) (ts' : String),
      handlePredict m' l' t' ts' req = (ApiResult.clientError f, []) := by
  have hgen : ∀ (m' : Option Model) (l' : Except String Unit) (t' : ℚ) (ts' : String),
      handlePredict m' l' t' ts' req = (ApiResult.clientError f, []) := by
    intro m' l' t' ts'
    unfold handlePredict
    rw [h]
  exact ⟨hgen model? logResult t ts, hgen⟩

/-- Instance of `validation_rejects_out_of_range` at `tenure = -1`. -/
theorem validation_rejects_out_of_range_witness :
    handlePredict none (Except.ok ()) 0 "" badTenureReq =
      (ApiResult.clientError "tenure", []) :=
  (validation_rejects_out_of_range none (Except.ok ()) 0 "" badTenureReq
    "tenure" rfl).1

/-- C5: on a successful invocation the handler returns exactly the shaped
response: the label is `Will Churn` iff the raw prediction is 1 (and
does not depend on the probability), `churn_probability` is the
probability rounded to 4 decimals, and the recommendation is the urgent
message when `p > 0.7`, the monitor message when `0.5 < p ≤ 0.7` and the
upsell message when `p ≤ 0.5`. -/
theorem predict_response_spec (m : Model) (t : ℚ) (ts : String) (req : Record)
    (d : Record) (canon : List ℚ) (r : ℤ) (p : ℚ)
    (hparse : parseCustomer req = Except.ok d)
    (hsel : selectCols d m.feature_names = Except.ok canon)
    (hraw : m.predictRaw canon = Except.ok r)
    (hproba : m.predictProba canon = Except.ok p) :
    (∃ row, handlePredict (some m) (Except.ok ()) t ts req =
        (ApiResult.ok (makeResponse r p ts), [row])) ∧
    ((makeResponse r p ts).churn_prediction = "Will Churn" ↔ r = 1) ∧
    (∀ p' : ℚ, (makeResponse r p' ts).churn_prediction =
      (makeResponse r p ts).churn_prediction) ∧
    (makeResponse r p ts).churn_probability = round4 p ∧
    (p > 7/10 → (makeResponse r p ts).recommendation = urgentMsg) ∧
    (1/2 < p ∧ p ≤ 7/10 → (makeResponse r p ts).recommendation = monitorMsg) ∧
    (p ≤ 1/2 → (makeResponse r p ts).recommendation = upsellMsg) := by
  have hrun : handlePredict (some m) (Except.ok ()) t ts req =
      (ApiResult.ok (makeResponse r p ts), [successRow d t ts]) := by
    simp only [handlePredict, hparse, hsel, hraw, hproba]
    rfl
  refine ⟨⟨successRow d t ts, hrun⟩, ?_, fun p' => rfl, rfl, ?_, ?_, ?_⟩
  · simp only [makeResponse]
    constructor
    · intro h
      by_contra hr
      rw [if_neg hr] at h
      exact absurd h (by decide)
    · intro h
      rw [if_pos h]
  · intro h
    simp only [makeResponse, recommendation]
    rw [if_pos h]
  · rintro ⟨h1, h2⟩
    simp only [makeResponse, recommendation]
    rw [if_neg (not_lt.mpr h2), if_pos h1]
  · intro h
    have h1 : ¬ (p > 7/10) := by push_neg; linarith
    simp only [makeResponse, recommendation]
    rw [if_neg h1, if_neg (not_lt.mpr h)]

/-- Instance of `predict_response_spec` on the documented example request
and the stub model. -/
theorem predict_response_spec_witness :
    ∃ row, handlePredict (some stubModel) (Except.ok ()) 0 "t0" exampleReq =
      (ApiResult.ok (makeResponse 1 (4/5) "t0"), [row]) :=
  (predict_response_spec stubModel 0 "t0" exampleReq exampleDict [] 1 (4/5)
    rfl rfl rfl rfl).1

/-- C6 counterexample: the same request that succeeds when the audit
append works returns a 500 server error when the append raises — the
logging failure IS propagated to the caller, contrary to the claim. -/
theorem log_failure_propagates_counterexample :
    (handlePredict (some stubModel) (Except.error "disk full") 0 "t0" exampleReq).1 =
      ApiResult.serverError "Prediction error: disk full" ∧
    (handlePredict (some stubModel) (Except.ok ()) 0 "t0" exampleReq).1 =
      ApiResult.ok (makeResponse 1 (4/5) "t0") ∧
    (ApiResult.serverError "Prediction error: disk full" :
        ApiResult PredictionResponse) ≠
      ApiResult.ok (makeResponse 1 (4/5) "t0") :=
  ⟨rfl, rfl, fun h => ApiResult.noConfusion h⟩

/-- C6 amended: because `log_prediction` is called inside the handler's
`try` block, a raising audit append on an otherwise successful inference
makes the whole request fail with `HTTPException(500, "Prediction
error: ...")`; nothing is appended and the successful response is not
returned. -/
theorem log_failure_fails_request (m : Model) (e : String) (t : ℚ) (ts : String)
    (req : Record) (d : Record) (canon : List ℚ) (r : ℤ) (p : ℚ)
    (hparse : parseCustomer req = Except.ok d)
    (hsel : selectCols d m.feature_names = Except.ok canon)
    (hraw : m.predictRaw canon = Except.ok r)
    (hproba : m.predictProba canon = Except.ok p) :
    handlePredict (some m) (Except.error e) t ts req =
      (ApiResult.serverError ("Prediction error: " ++ e), []) := by
  simp only [handlePredict, hparse, hsel, hraw, hproba]
  rfl

/-- Instance of `log_failure_fails_request` on the documented example
request and the stub model. -/
theorem log_failure_fails_request_witness :
    handlePredict (some stubModel) (Except.error "disk full") 0 "t0" exampleReq =
      (ApiResult.serverError "Prediction error: disk full", []) :=
  log_failure_fails_request stubModel "disk full" 0 "t0" exampleReq exampleDict
    [] 1 (4/5) rfl rfl rfl rfl

/-- C7 evidence: on a successful invocation the single appended audit row
carries the `Ellipsis` placeholder in its `prediction` and `probability`
columns — not the response's `churn_prediction` and `churn_probability`
values, which are a string and a number respectively. -/
theorem audit_row_has_ellipsis_placeholders :
    ∃ row, handlePredict (some stubModel) (Except.ok ()) 0 "t0" exampleReq =
        (ApiResult.ok (makeResponse 1 (4/5) "t0"), [row]) ∧
      lookupV row "prediction" = some Value.ellipsis ∧
      lookupV row "probability" = some Value.ellipsis ∧
      Value.str (makeResponse 1 (4/5) "t0").churn_prediction ≠ Value.ellipsis ∧
      Value.num (makeResponse 1 (4/5) "t0").churn_probability ≠ Value.ellipsis :=
  ⟨_, rfl, rfl, rfl,
    fun h => Value.noConfusion h, fun h => Value.noConfusion h⟩

end ChurnApi

namespace ChurnApi

/-! ### Claim theorems: error-path logging -/

/-- C9: the `log_prediction` call in the handler's `except` clause stands
after the `raise` statement, so it never runs: whenever the handler
answers with a server error the list of appended audit rows is empty,
and any row the handler ever appends carries status `success` — no row
with status `error` is ever written. -/
theorem error_path_never_logs (model? : Option Model)
    (logResult : Except String Unit) (t : ℚ) (ts : String) (req : Record) :
    (∀ e, (handlePredict model? logResult t ts req).1 = ApiResult.serverError e →
      (handlePredict model? logResult t ts req).2 = []) ∧
    (∀ row ∈ (handlePredict model? logResult t ts req).2,
      lookupV row "status" = some (Value.str "success")) := by
  unfold handlePredict
  cases hparse : parseCustomer req with
  | error f => exact ⟨fun e h => rfl, by simp⟩
  | ok d =>
    dsimp only
    cases model? with
    | none => exact ⟨fun e h => rfl, by simp⟩
    | some m =>
      dsimp only
      cases hsel : selectCols d m.feature_names with
      | error e1 => exact ⟨fun e h => rfl, by simp⟩
      | ok canon =>
        dsimp only
        cases m.predictRaw canon with
        | error e1 => exact ⟨fun e h => rfl, by simp⟩
        | ok r =>
          dsimp only
          cases m.predictProba canon with
          | error e1 => exact ⟨fun e h => rfl, by simp⟩
          | ok p =>
            dsimp only
            have hlr : logRow d ellipsisResponse "success" t ts =
                some (successRow d t ts) := rfl
            rw [hlr]
            cases logResult with
            | error e1 => exact ⟨fun e h => rfl, by simp⟩
            | ok u =>
              dsimp only
              refine ⟨fun e h => absurd h (by simp), ?_⟩
              intro row hrow
              have hr : row = successRow d t ts := by simpa using hrow
              subst hr
              have hkeysd : d.map Prod.fst = customerFields.map FieldSpec.name :=
                parseFields_keys hparse
              unfold successRow lookupV
              rw [List.find?_append]
              have hnone : (d.map fun p => (p.1, Value.num p.2)).find?
                  (fun p => p.1 == "status") = none := by
                rw [List.find?_eq_none]
                rintro x hx
                rcases List.mem_map.mp hx with ⟨q, hq, hq2⟩
                have hq1 : x.1 = q.1 := by rw [← hq2]
                have hmemk : q.1 ∈ customerFields.map FieldSpec.name := by
                  rw [← hkeysd]
                  exact List.mem_map.mpr ⟨q, hq, rfl⟩
                have hne : q.1 ≠ "status" := by
                  intro hcontra
                  rw [hcontra] at hmemk
                  exact absurd hmemk (by decide)
                simp [hq1, hne]
              rw [hnone]
              rfl

/-- Instance of `error_path_never_logs` at a failing request (no model
loaded): the error response comes with no appended audit row. -/
theorem error_path_never_logs_witness :
    (handlePredict none (Except.ok ()) 0 "t0" exampleReq).2 = [] :=
  (error_path_never_logs none (Except.ok ()) 0 "t0" exampleReq).1
    "Model not loaded" rfl

end ChurnApi

namespace ChurnApi

/-! ### Claim theorems: startup model loading -/

theorem tryPaths_cons_skip (fs : FileSystem) (q : String) (ps : List String)
    (hq : loadsOk fs q = false) : tryPaths fs (q :: ps) = tryPaths fs ps := by
  unfold loadsOk at hq
  conv_lhs => unfold tryPaths
  cases he : fs.pathExists q with
  | false => rw [if_neg (by simp [he])]
  | true =>
    simp only [eq_self_iff_true, if_true]
    rw [he] at hq
    simp only [Bool.true_and] at hq
    by_cases hx : strEndsWith q ".joblib" = true ∨ strEndsWith q ".pkl" = true
    · rw [if_pos hx]
      have hb : (strEndsWith q ".joblib" || strEndsWith q ".pkl") = true := by
        rcases hx with h | h <;> simp [h]
      rw [hb] at hq
      simp only [Bool.true_and] at hq
      cases hl : fs.load q with
      | ok m => rw [hl] at hq; simp at hq
      | error e1 => rfl
    · rw [if_neg hx]

theorem tryPaths_found (fs : FileSystem) :
    ∀ (ps : List String) (p : String), ps.find? (loadsOk fs) = some p →
      ∃ m, fs.load p = Except.ok m ∧ tryPaths fs ps = Except.ok (m, p) := by
  intro ps
  induction ps with
  | nil => intro p h; cases h
  | cons q ps ih =>
    intro p h
    cases hq : loadsOk fs q with
    | true =>
      rw [List.find?_cons_of_pos _ hq] at h
      have hpq : q = p := by simpa using h
      subst hpq
      simp only [loadsOk, Bool.and_eq_true] at hq
      obtain ⟨⟨he, horb⟩, hmatch⟩ := hq
      have hxp : strEndsWith q ".joblib" = true ∨ strEndsWith q ".pkl" = true := by
        simpa using horb
      cases hl : fs.load q with
      | error e1 => rw [hl] at hmatch; simp at hmatch
      | ok m =>
        refine ⟨m, rfl, ?_⟩
        conv_lhs => unfold tryPaths
        rw [if_pos he, if_pos hxp, hl]
    | false =>
      rw [List.find?_cons_of_neg _ (by simp [hq])] at h
      rcases ih p h with ⟨m, hm, hrun⟩
      exact ⟨m, hm, (tryPaths_cons_skip fs q ps hq).trans hrun⟩

theorem tryPaths_none (fs : FileSystem) :
    ∀ ps : List String, ps.find? (loadsOk fs) = none →
      tryPaths fs ps = Except.error "Model not found!" := by
  intro ps
  induction ps with
  | nil => intro _; rfl
  | cons q ps ih =>
    intro h
    rw [List.find?_eq_none] at h
    have hq : loadsOk fs q = false := by
      have := h q (List.mem_cons_self _ _)
      simpa using this
    rw [tryPaths_cons_skip fs q ps hq]
    refine ih ?_
    rw [List.find?_eq_none]
    exact fun x hx => h x (List.mem_cons_of_mem _ hx)

/-- C8 counterexample: under `corruptFirstFS` the first existing
candidate path is the first of the hardcoded list, yet startup loads the
model from the second path — the model is not loaded from the first
existing path when that path's load raises. -/
theorem startup_not_first_existing_counterexample :
    firstExistingPath corruptFirstFS = some "../models/churn_model_fixed.joblib" ∧
    (load_model_at_startup corruptFirstFS).map Prod.snd =
      Except.ok "../models/sagemaker_production/model.joblib" ∧
    ("../models/sagemaker_production/model.joblib" : String) ≠
      "../models/churn_model_fixed.joblib" :=
  ⟨rfl, rfl, by decide⟩

/-- C8 amended: the model is loaded from the first candidate path that
exists, has a recognized extension AND loads without raising — existing
candidates whose deserialization raises are skipped, not fatal; startup
raises `Model not found!` exactly when no candidate qualifies; the loop
returns at the first successful load, so the handle is assigned once and
never reassigned. -/
theorem startup_loads_first_loadable (fs : FileSystem) :
    (∀ p, model_paths.find? (loadsOk fs) = some p →
      ∃ m, fs.load p = Except.ok m ∧ load_model_at_startup fs = Except.ok (m, p)) ∧
    (model_paths.find? (loadsOk fs) = none →
      load_model_at_startup fs = Except.error "Model not found!") :=
  ⟨fun p h => tryPaths_found fs model_paths p h,
   fun h => tryPaths_none fs model_paths h⟩

/-- Instance of `startup_loads_first_loadable` on `corruptFirstFS`: the
first loadable candidate is the second path, and startup indeed loads
from it. -/
theorem startup_loads_first_loadable_witness :
    ∃ m, corruptFirstFS.load "../models/sagemaker_production/model.joblib" =
        Except.ok m ∧
      load_model_at_startup corruptFirstFS =
        Except.ok (m, "../models/sagemaker_production/model.joblib") :=
  (startup_loads_first_loadable corruptFirstFS).1
    "../models/sagemaker_production/model.joblib" rfl

end ChurnApi

namespace ChurnApi

/-- Instance of `predict_batch_spec`: a two-element batch yields exactly
two result slots. -/
theorem predict_batch_spec_witness :
    (predict_batch stubModel [exampleDict, badTenureReq]).length = 2 :=
  (predict_batch_spec stubModel [exampleDict, badTenureReq]).1.trans rfl

/-- Instance of `confidence_partition`: 0.65 sits in the Medium band and
0.65 is not classified High despite satisfying the nominal Medium
condition. -/
theorem confidence_partition_witness :
    confidence (13/20) = "Medium" :=
  (confidence_partition (13/20)).2.1.mpr (Or.inl ⟨by norm_num, by norm_num⟩)

end ChurnApi
